import Mathlib

/-!
Verification development for the Matcha matching pipeline.

Shallow embedding of the matching core: the feature extractor
(src/lib/services/matching/MatchFeatureExtractor.ts), the keyword and
semantic matching strategies, the matching orchestrator, the request
deduplication cache and the company insights cache.

Modelling conventions:
* JavaScript numbers that hold integers are modelled as Int / Nat;
  the float arithmetic in the semantic score rescaling is modelled
  exactly over Rat, with Math.round as the floor of x + 1/2.
* Async control flow is modelled as explicit state passing: a call to
  the deduplication cache is a synchronous state transition, and the
  later resolution of the executor promise is a separate transition
  (completeSuccess / completeFailure) applied to the state.
* Cryptographic digests (sha256 of the normalized key, md5 of a job
  description) are abstracted: the dedup hash is the normalized JSON
  string itself, and the insights cache is parametric in the
  description-hash function.
-/

set_option linter.unusedVariables false

/-- Seniority levels, from src/types/profile.ts. -/
inductive SeniorityLevel where
  | entry | junior | mid | senior | lead
deriving DecidableEq, Repr, Inhabited

/-- Company sizes, from src/types/profile.ts. -/
inductive CompanySize where
  | small | medium | large
deriving DecidableEq, Repr, Inhabited

/-- Remote-work preferences, from src/types/profile.ts. -/
inductive RemotePreference where
  | remote | hybrid | onsite | flexible
deriving DecidableEq, Repr, Inhabited

/-- AnonymizedProfile, from src/types/profile.ts. -/
structure AnonymizedProfile where
  skills : List String
  yearsExperience : Nat
  seniority : SeniorityLevel
  desiredRoles : List String
  preferredCompanySize : CompanySize
  industries : List String
  remotePreference : RemotePreference
deriving DecidableEq, Repr, Inhabited

/-- Job, from src/types/job.ts; postedDate (a JS Date) is epoch milliseconds. -/
structure Job where
  id : String
  title : String
  company : String
  description : String
  requiredSkills : List String
  role : String
  companySize : CompanySize
  industry : String
  remotePreference : RemotePreference
  location : Option String := none
  salaryRange : Option String := none
  postedDate : Option Int := none
deriving DecidableEq, Repr, Inhabited

/-- String.prototype.toLowerCase, for the ASCII strings the matcher compares
(String.map Char.toLower, written on the character list). -/
def jsToLower (s : String) : String := ⟨s.data.map Char.toLower⟩

/-- Helper for String.prototype.includes: is the needle an infix of the haystack. -/
def containsSub : List Char → List Char → Bool
  | [], needle => needle.isEmpty
  | c :: t, needle => needle.isPrefixOf (c :: t) || containsSub t needle

/-- String.prototype.includes. -/
def strIncludes (hay needle : String) : Bool := containsSub hay.toList needle.toList

/-- SkillMatch, from src/types/job.ts. -/
structure SkillMatch where
  matched : List String
  score : Int
  totalPossible : Int
deriving DecidableEq, Repr, Inhabited

/-- MatchAlignment values of ExperienceMatch.alignment, from src/types/job.ts. -/
inductive MatchAlignment where
  | entry | junior | mid | senior | lead | mismatch
deriving DecidableEq, Repr, Inhabited

/-- ExperienceMatch, from src/types/job.ts; jobLevel none models "unknown". -/
structure ExperienceMatch where
  profileYears : Nat
  profileLevel : SeniorityLevel
  jobLevel : Option SeniorityLevel
  alignment : MatchAlignment
deriving DecidableEq, Repr, Inhabited

/-- The JS value boolean-or-"partial" of PreferenceMatch.remote. -/
inductive RemoteMatchVal where
  | yes | partialMatch | no
deriving DecidableEq, Repr, Inhabited

/-- PreferenceMatch, from src/types/job.ts. -/
structure PreferenceMatch where
  role : Bool
  industry : List Bool
  companySize : Bool
  remote : RemoteMatchVal
deriving DecidableEq, Repr, Inhabited

/-- ScoreBreakdown, from src/types/job.ts. -/
structure ScoreBreakdown where
  skills : Int
  role : Int
  industry : Int
  companySize : Int
  remote : Int
  experience : Int
deriving DecidableEq, Repr, Inhabited

/-- MatchFeatures, from src/types/job.ts. -/
structure MatchFeatures where
  skillMatch : SkillMatch
  experienceMatch : ExperienceMatch
  preferenceMatch : PreferenceMatch
  scoreBreakdown : ScoreBreakdown
deriving DecidableEq, Repr, Inhabited

/-- MatchFeatureExtractor.extractSkillMatch: case-insensitive exact
intersection of profile skills and required skills, 10 points per skill. -/
def extractSkillMatch (profile : AnonymizedProfile) (job : Job) : SkillMatch :=
  let matched := profile.skills.filter (fun skill =>
    job.requiredSkills.any (fun requiredSkill =>
      jsToLower requiredSkill == jsToLower skill))
  { matched := matched
    score := (matched.length : Int) * 10
    totalPossible := (job.requiredSkills.length : Int) * 10 }

/-- MatchFeatureExtractor.extractJobLevel: keyword scan over
title + " " + role + " " + description (lowercased); none is "unknown". -/
def extractJobLevel (job : Job) : Option SeniorityLevel :=
  let combined :=
    jsToLower job.title ++ " " ++ jsToLower job.role ++ " " ++ jsToLower job.description
  if strIncludes combined "entry" || strIncludes combined "intern" ||
      strIncludes combined "graduate" then some .entry
  else if strIncludes combined "junior" || strIncludes combined "jr" then some .junior
  else if strIncludes combined "senior" || strIncludes combined "sr" ||
      strIncludes combined "lead" || strIncludes combined "principal" then some .senior
  else if strIncludes combined "lead" || strIncludes combined "principal" ||
      strIncludes combined "architect" then some .lead
  else if strIncludes combined "mid" || strIncludes combined "middle" then some .mid
  else none

/-- The alignmentMap table of MatchFeatureExtractor.extractExperienceMatch,
indexed by (profile level, job level); none is the table's "unknown" column. -/
def alignmentTable (profileLevel : SeniorityLevel) (jobLevel : Option SeniorityLevel) :
    MatchAlignment :=
  match profileLevel, jobLevel with
  | .entry, some .entry => .entry
  | .entry, some .junior => .entry
  | .entry, some .mid => .mismatch
  | .entry, some .senior => .mismatch
  | .entry, some .lead => .mismatch
  | .entry, none => .entry
  | .junior, some .entry => .entry
  | .junior, some .junior => .junior
  | .junior, some .mid => .junior
  | .junior, some .senior => .mismatch
  | .junior, some .lead => .mismatch
  | .junior, none => .junior
  | .mid, some .entry => .mismatch
  | .mid, some .junior => .junior
  | .mid, some .mid => .mid
  | .mid, some .senior => .mid
  | .mid, some .lead => .mismatch
  | .mid, none => .mid
  | .senior, some .entry => .mismatch
  | .senior, some .junior => .mismatch
  | .senior, some .mid => .mid
  | .senior, some .senior => .senior
  | .senior, some .lead => .senior
  | .senior, none => .senior
  | .lead, some .entry => .mismatch
  | .lead, some .junior => .mismatch
  | .lead, some .mid => .mismatch
  | .lead, some .senior => .senior
  | .lead, some .lead => .lead
  | .lead, none => .lead

/-- MatchFeatureExtractor.extractExperienceMatch: years heuristic when the
job level is unknown, the explicit alignmentMap table otherwise. -/
def extractExperienceMatch (profile : AnonymizedProfile) (job : Job) : ExperienceMatch :=
  let jobLevel := extractJobLevel job
  let profileLevel := profile.seniority
  let alignment : MatchAlignment :=
    match jobLevel with
    | none =>
      if profile.yearsExperience ≤ 2 then
        if profileLevel = .entry ∨ profileLevel = .junior then .entry else .mismatch
      else if profile.yearsExperience ≤ 5 then
        if profileLevel = .junior ∨ profileLevel = .mid then .mid else .mismatch
      else
        if profileLevel = .mid ∨ profileLevel = .senior ∨ profileLevel = .lead then
          .senior
        else .mismatch
    | some jl => alignmentTable profileLevel (some jl)
  { profileYears := profile.yearsExperience
    profileLevel := profileLevel
    jobLevel := jobLevel
    alignment := alignment }

/-- MatchFeatureExtractor.extractPreferenceMatch. -/
def extractPreferenceMatch (profile : AnonymizedProfile) (job : Job) : PreferenceMatch :=
  let roleMatch := profile.desiredRoles.any (fun role =>
    jsToLower role == jsToLower job.role)
  let industryMatches := profile.industries.map (fun industry =>
    jsToLower industry == jsToLower job.industry)
  let companySizeMatch := decide (profile.preferredCompanySize = job.companySize)
  let remoteMatch : RemoteMatchVal :=
    if profile.remotePreference = job.remotePreference then .yes
    else if profile.remotePreference = .flexible ∨ job.remotePreference = .flexible then
      .partialMatch
    else .no
  { role := roleMatch
    industry := industryMatches
    companySize := companySizeMatch
    remote := remoteMatch }

/-- MatchFeatureExtractor.calculateScoreBreakdown. -/
def calculateScoreBreakdown (profile : AnonymizedProfile) (job : Job) : ScoreBreakdown :=
  let skillMatch := extractSkillMatch profile job
  let preferenceMatch := extractPreferenceMatch profile job
  let experienceMatch := extractExperienceMatch profile job
  { skills := skillMatch.score
    role := if preferenceMatch.role then 20 else 0
    industry := ((preferenceMatch.industry.filter (fun b => b)).length : Int) * 15
    companySize := if preferenceMatch.companySize then 10 else 0
    remote :=
      match preferenceMatch.remote with
      | .yes => 10
      | .partialMatch => 5
      | .no => 0
    experience := if experienceMatch.alignment ≠ .mismatch then 5 else 0 }

/-- MatchFeatureExtractor.buildMatchFeatures. -/
def buildMatchFeatures (profile : AnonymizedProfile) (job : Job) : MatchFeatures :=
  { skillMatch := extractSkillMatch profile job
    experienceMatch := extractExperienceMatch profile job
    preferenceMatch := extractPreferenceMatch profile job
    scoreBreakdown := calculateScoreBreakdown profile job }

/-- MatchResult, from src/types/job.ts (the optional insightCard is
attached outside the strategies and is omitted here). -/
structure MatchResult where
  job : Job
  score : Int
  explanation : String
  matchedSkills : List String
  isApproximate : Bool
  features : MatchFeatures
deriving DecidableEq, Repr, Inhabited

/-- KeywordMatchingStrategy.calculateScoreFromBreakdown: the sum of the six
breakdown fields. -/
def calculateScoreFromBreakdown (breakdown : ScoreBreakdown) : Int :=
  breakdown.skills + breakdown.role + breakdown.industry +
    breakdown.companySize + breakdown.remote + breakdown.experience

/-- Rendering of the CompanySize enum as its JS string. -/
def companySizeText : CompanySize → String
  | .small => "small"
  | .medium => "medium"
  | .large => "large"

/-- Rendering of the RemotePreference enum as its JS string. -/
def remotePreferenceText : RemotePreference → String
  | .remote => "remote"
  | .hybrid => "hybrid"
  | .onsite => "onsite"
  | .flexible => "flexible"

/-- The alignmentText lookup used by the explanation generators
(the mismatch row is never consulted by the source). -/
def alignmentText : MatchAlignment → String
  | .entry => "suitable for entry-level"
  | .junior => "aligned with junior-level"
  | .mid => "aligned with mid-level"
  | .senior => "aligned with senior-level"
  | .lead => "aligned with lead-level"
  | .mismatch => ""

/-- The industries of the profile whose positional boolean in
features.preferenceMatch.industry is true (the matchedIndustries filter of
the explanation generators). -/
def matchedIndustriesOf (profile : AnonymizedProfile) (features : MatchFeatures) :
    List String :=
  (profile.industries.zip features.preferenceMatch.industry).filterMap
    (fun p => if p.2 then some p.1 else none)

/-- The sentence list built by KeywordMatchingStrategy.generateExplanation:
up to six factor sentences, then generic filler sentences while fewer than
three sentences are present. -/
def kwExplanationParts (profile : AnonymizedProfile) (job : Job)
    (features : MatchFeatures) : List String :=
  let matchedIndustries := matchedIndustriesOf profile features
  let parts0 :=
    (if features.skillMatch.matched.length > 0 then
      ["Matched on skills: " ++ String.intercalate ", " features.skillMatch.matched]
    else []) ++
    (if features.preferenceMatch.role then
      ["Role matches your preferences: " ++ job.role]
    else []) ++
    (if matchedIndustries.length > 0 then
      ["Industry matches: " ++ String.intercalate ", " matchedIndustries]
    else []) ++
    (if features.experienceMatch.alignment ≠ .mismatch then
      ["Experience level " ++ alignmentText features.experienceMatch.alignment ++
        " position"]
    else []) ++
    (if features.preferenceMatch.companySize then
      ["Company size matches your preference: " ++ companySizeText job.companySize]
    else []) ++
    (if features.preferenceMatch.remote = .yes then
      ["Remote work preference matches: " ++ remotePreferenceText job.remotePreference]
    else if features.preferenceMatch.remote = .partialMatch then
      ["Remote work preference partially matches"]
    else [])
  if parts0.length < 3 then
    let p1 :=
      if features.skillMatch.matched.length = 0 then
        parts0 ++ ["Some skill overlap with job requirements"]
      else parts0
    let p2 :=
      if ¬features.preferenceMatch.role ∧ p1.length < 3 then
        p1 ++ ["Role may align with your career goals"]
      else p1
    if matchedIndustries.length = 0 ∧ p2.length < 3 then
      p2 ++ ["Industry may offer growth opportunities"]
    else p2
  else parts0

/-- KeywordMatchingStrategy.generateExplanation. -/
def kwGenerateExplanation (profile : AnonymizedProfile) (job : Job)
    (features : MatchFeatures) : String :=
  let parts := kwExplanationParts profile job features
  if parts.length = 0 then "Some alignment with your profile"
  else String.intercalate ". " parts

/-- The JS sort comparator (a, b) => b.score - a.score as a Bool order for
the stable mergeSort: a may precede b when b.score ≤ a.score. -/
def kwResultLE (a b : MatchResult) : Bool := decide (b.score ≤ a.score)

/-- The per-job body of KeywordMatchingStrategy.findMatches: build features,
sum the breakdown, and keep the job only when its score is positive. -/
def kwMatchOf (profile : AnonymizedProfile) (job : Job) : Option MatchResult :=
  if calculateScoreFromBreakdown (buildMatchFeatures profile job).scoreBreakdown > 0 then
    some { job := job
           score := calculateScoreFromBreakdown (buildMatchFeatures profile job).scoreBreakdown
           explanation := kwGenerateExplanation profile job (buildMatchFeatures profile job)
           matchedSkills := (buildMatchFeatures profile job).skillMatch.matched
           isApproximate := true
           features := buildMatchFeatures profile job }
  else none

/-- KeywordMatchingStrategy.findMatches: score every job from the feature
breakdown, keep scores > 0, sort by score descending, take the top 10. -/
def kwFindMatches (profile : AnonymizedProfile) (jobs : List Job) : List MatchResult :=
  ((jobs.filterMap (kwMatchOf profile)).mergeSort kwResultLE).take 10

/-- Math.round for the nonnegative-and-negative JS semantics
(round half toward positive infinity). -/
def jsRound (x : ℚ) : Int := Int.floor (x + 1/2)

/-- The breakdown adjustment of SemanticMatchingStrategy.findMatches:
if the deterministic breakdown has a positive total, rescale each field
proportionally to the semantic score; otherwise use the fixed default
distribution. JS float division and multiplication are modelled exactly
over Rat. -/
def adjustBreakdown (baseBreakdown : ScoreBreakdown) (semanticScore : Int) :
    ScoreBreakdown :=
  let baseTotal := calculateScoreFromBreakdown baseBreakdown
  if baseTotal > 0 then
    { skills := jsRound ((baseBreakdown.skills : ℚ) / (baseTotal : ℚ) * (semanticScore : ℚ))
      role := jsRound ((baseBreakdown.role : ℚ) / (baseTotal : ℚ) * (semanticScore : ℚ))
      industry := jsRound ((baseBreakdown.industry : ℚ) / (baseTotal : ℚ) * (semanticScore : ℚ))
      companySize := jsRound ((baseBreakdown.companySize : ℚ) / (baseTotal : ℚ) * (semanticScore : ℚ))
      remote := jsRound ((baseBreakdown.remote : ℚ) / (baseTotal : ℚ) * (semanticScore : ℚ))
      experience := jsRound ((baseBreakdown.experience : ℚ) / (baseTotal : ℚ) * (semanticScore : ℚ)) }
  else
    { skills := jsRound ((semanticScore : ℚ) * 0.4)
      role := jsRound ((semanticScore : ℚ) * 0.2)
      industry := jsRound ((semanticScore : ℚ) * 0.15)
      companySize := jsRound ((semanticScore : ℚ) * 0.1)
      remote := jsRound ((semanticScore : ℚ) * 0.1)
      experience := jsRound ((semanticScore : ℚ) * 0.05) }

/-- The sentence list built by SemanticMatchingStrategy.generateExplanation:
a similarity-band sentence, the factor sentences, then filler sentences
while fewer than three sentences are present. -/
def semExplanationParts (profile : AnonymizedProfile) (job : Job) (similarity : ℚ)
    (features : MatchFeatures) : List String :=
  let matchedIndustries := matchedIndustriesOf profile features
  let parts0 :=
    (if similarity > 0.7 then ["Strong semantic match"]
    else if similarity > 0.5 then ["Good semantic alignment"]
    else ["Some semantic alignment"]) ++
    (if features.skillMatch.matched.length > 0 then
      ["Skills match: " ++ String.intercalate ", " features.skillMatch.matched]
    else []) ++
    (if features.preferenceMatch.role then
      ["Role matches your preferences: " ++ job.role]
    else []) ++
    (if matchedIndustries.length > 0 then
      ["Industry matches: " ++ String.intercalate ", " matchedIndustries]
    else []) ++
    (if features.experienceMatch.alignment ≠ .mismatch then
      ["Experience level " ++ alignmentText features.experienceMatch.alignment ++
        " position"]
    else []) ++
    (if features.preferenceMatch.companySize then
      ["Company size matches your preference: " ++ companySizeText job.companySize]
    else []) ++
    (if features.preferenceMatch.remote = .yes then
      ["Remote work preference matches: " ++ remotePreferenceText job.remotePreference]
    else if features.preferenceMatch.remote = .partialMatch then
      ["Remote work preference partially matches"]
    else [])
  if parts0.length < 3 then
    let p1 :=
      if features.skillMatch.matched.length = 0 then
        parts0 ++ ["Some skill overlap with job requirements"]
      else parts0
    let p2 :=
      if ¬features.preferenceMatch.role ∧ p1.length < 3 then
        p1 ++ ["Role may align with your career goals"]
      else p1
    let p3 :=
      if matchedIndustries.length = 0 ∧ p2.length < 3 then
        p2 ++ ["Industry may offer growth opportunities"]
      else p2
    if features.experienceMatch.alignment = .mismatch ∧ p3.length < 3 then
      p3 ++ ["Experience level may be suitable for growth"]
    else p3
  else parts0

/-- SemanticMatchingStrategy.generateExplanation. -/
def semGenerateExplanation (profile : AnonymizedProfile) (job : Job) (similarity : ℚ)
    (features : MatchFeatures) : String :=
  String.intercalate ". " (semExplanationParts profile job similarity features)

/-- SemanticMatchingStrategy.findMatches, with the resolved similarity array
of HuggingFaceService.calculateSimilarities supplied as input: entry none
models a missing / non-number / NaN similarity (filtered out by the
typeof-number check), entry some q a numeric similarity q. -/
def semMatchOf (profile : AnonymizedProfile) (similarities : List (Option ℚ))
    (ij : Nat × Job) : Option MatchResult :=
  match similarities.getD ij.1 none with
  | none => none
  | some similarity =>
    some { job := ij.2
           score := jsRound (similarity * 100)
           explanation := semGenerateExplanation profile ij.2 similarity
             { buildMatchFeatures profile ij.2 with
                scoreBreakdown := adjustBreakdown
                  (buildMatchFeatures profile ij.2).scoreBreakdown
                  (jsRound (similarity * 100)) }
           matchedSkills := (buildMatchFeatures profile ij.2).skillMatch.matched
           isApproximate := false
           features := { buildMatchFeatures profile ij.2 with
             scoreBreakdown := adjustBreakdown
               (buildMatchFeatures profile ij.2).scoreBreakdown
               (jsRound (similarity * 100)) } }

/-- SemanticMatchingStrategy.findMatches over the indexed job list. -/
def semFindMatches (profile : AnonymizedProfile) (jobs : List Job)
    (similarities : List (Option ℚ)) : List MatchResult :=
  ((jobs.enum.filterMap (semMatchOf profile similarities)).mergeSort kwResultLE).take 10

/-- SEMANTIC_MATCHING_TIMEOUT_MS of MatchingOrchestrator. -/
def SEMANTIC_MATCHING_TIMEOUT_MS : Int := 5000

/-- MAX_MATCHES_TO_PROCESS of MatchingOrchestrator. -/
def MAX_MATCHES_TO_PROCESS : Nat := 10

/-- MatchingOrchestrator.findMatches. The Promise.race of the semantic
strategy against the 5 s timeout is abstracted as semanticOutcome: ok ms
when the semantic call resolved with ms before the timeout, error when it
rejected with any error or the timeout fired first. The orchestrator first
slices the job list to the first min(length, MAX_MATCHES_TO_PROCESS * 2)
jobs, and both strategies only ever see that slice. -/
def orchestratorFindMatches (profile : AnonymizedProfile) (jobs : List Job)
    (semanticOutcome : Except Unit (List MatchResult)) : List MatchResult :=
  let jobsToProcess := jobs.take (min jobs.length (MAX_MATCHES_TO_PROCESS * 2))
  match semanticOutcome with
  | .ok ms => (ms.mergeSort kwResultLE).take MAX_MATCHES_TO_PROCESS
  | .error _ =>
    ((kwFindMatches profile jobsToProcess).mergeSort kwResultLE).take
      MAX_MATCHES_TO_PROCESS

/-- A JSON-like value for deduplication-cache keys (the parameter objects
passed to RequestDeduplicationCache.getOrExecute). -/
inductive JsonVal where
  | jstr : String → JsonVal
  | jnum : Int → JsonVal
  | jobj : List (String × JsonVal) → JsonVal
deriving Repr

/-- Quote a JSON string (the keys and string values in play contain no
characters that JSON.stringify would escape). -/
def jsonQuote (s : String) : String := "\"" ++ s ++ "\""

/-- Bool order on key/rendered-value pairs by key, for the canonical
(sorted) property order that the sorted replacer array induces. -/
def keyLE (a b : String × String) : Bool := decide (a.1 ≤ b.1)

mutual

/-- JSON.stringify v replacerKeys for the replacer array produced by
Object.keys(params).sort(): every (nested) object keeps only properties
whose key is in the replacer array, listed in the replacer array's
(sorted) order — realized here by sorting the kept properties by key. -/
def serializeVal : JsonVal → List String → String
  | .jstr s, _ => jsonQuote s
  | .jnum n, _ => toString n
  | .jobj fields, ks =>
    let chosen :=
      ((serializeFields fields ks).filter (fun f => ks.contains f.1)).mergeSort keyLE
    "\x7b" ++
      String.intercalate "," (chosen.map (fun f => jsonQuote f.1 ++ ":" ++ f.2)) ++
      "\x7d"

/-- Render every property of an object to (key, serialized value). -/
def serializeFields : List (String × JsonVal) → List String → List (String × String)
  | [], _ => []
  | (k, v) :: rest, ks => (k, serializeVal v ks) :: serializeFields rest ks

end

/-- Object.keys of a params value. -/
def topLevelKeys : JsonVal → List String
  | .jobj fields => fields.map Prod.fst
  | _ => []

/-- Array.prototype.sort on strings (lexicographic). -/
def sortStrings (l : List String) : List String :=
  l.mergeSort (fun a b => decide (a ≤ b))

/-- RequestDeduplicationCache.generateRequestHash: the normalized string
JSON.stringify(params, Object.keys(params).sort()). The sha256 digest of
that string is abstracted away (equal normalized strings give equal
digests, and sha256 is treated as collision-free). -/
def generateRequestHash (params : JsonVal) : String :=
  serializeVal params (sortStrings (topLevelKeys params))

/-- A cache entry of RequestDeduplicationCache (CacheEntry of part_011). -/
structure CacheEntryM (α : Type) where
  result : α
  timestamp : Int
  expiresAt : Int
deriving DecidableEq, Repr

/-- State of a RequestDeduplicationCache: the result cache and the
in-flight map, keyed by request hash; in-flight promises are identified
by promise ids. -/
structure DedupState (α : Type) where
  cache : List (String × CacheEntryM α)
  pending : List (String × Nat)
deriving DecidableEq, Repr

/-- Outcome of one synchronous pass through getOrExecute: a valid cache
hit, joining of an in-flight promise, or the start of a new execution
(which is exactly when the executor is invoked). -/
inductive CallOutcome (α : Type) where
  | cachedHit : α → CallOutcome α
  | joinedPending : Nat → CallOutcome α
  | started : Nat → CallOutcome α
deriving DecidableEq, Repr

/-- The synchronous part of RequestDeduplicationCache.getOrExecute at time
now: return a valid cached result if present, else join an in-flight
promise for the same hash, else register a fresh in-flight promise
(invoking the executor). -/
def getOrExecuteM {α : Type} (st : DedupState α) (params : JsonVal) (now : Int)
    (freshPid : Nat) : CallOutcome α × DedupState α :=
  let hash := generateRequestHash params
  let cachedValid : Option α :=
    match st.cache.lookup hash with
    | some cached => if cached.expiresAt > now then some cached.result else none
    | none => none
  match cachedValid with
  | some v => (.cachedHit v, st)
  | none =>
    match st.pending.lookup hash with
    | some pid => (.joinedPending pid, st)
    | none => (.started freshPid, { st with pending := (hash, freshPid) :: st.pending })

/-- The then-handler of getOrExecute: on success the result is cached with
timestamp and expiry computed from the now captured at request entry
(reqNow), and the in-flight marker is deleted. completionTime (when the
executor promise actually resolved) is faithfully unused. -/
def completeSuccess {α : Type} (st : DedupState α) (params : JsonVal) (v : α)
    (reqNow ttl completionTime : Int) : DedupState α :=
  let hash := generateRequestHash params
  { cache := (hash, { result := v, timestamp := reqNow, expiresAt := reqNow + ttl }) ::
      st.cache.eraseP (fun p => p.1 == hash)
    pending := st.pending.eraseP (fun p => p.1 == hash) }

/-- The catch-handler of getOrExecute: the in-flight marker is deleted and
nothing is cached. -/
def completeFailure {α : Type} (st : DedupState α) (params : JsonVal) : DedupState α :=
  { st with pending := st.pending.eraseP (fun p => p.1 == generateRequestHash params) }

/-- A full request lifecycle: getOrExecute is entered at time reqNow and
starts an execution, and the executor later resolves with v at
completionTime; the then-handler runs with the captured reqNow. -/
def getOrExecuteThenComplete {α : Type} (st : DedupState α) (params : JsonVal)
    (reqNow : Int) (freshPid : Nat) (ttl : Int) (v : α) (completionTime : Int) :
    DedupState α :=
  completeSuccess (getOrExecuteM st params reqNow freshPid).2 params v reqNow ttl
    completionTime

/-- DEFAULT_TTL of RequestDeduplicationCache. -/
def DEDUP_DEFAULT_TTL : Int := 3600000

/-- CompanyInsight, from src/types/job.ts. -/
structure CompanyInsight where
  companySize : CompanySize
  industries : List String
  description : String
  keyResponsibilities : List String
deriving DecidableEq, Repr, Inhabited

/-- CachedInsight of CompanyInsightsCache. -/
structure CachedInsight where
  insight : CompanyInsight
  timestamp : Int
  expiresAt : Int
deriving DecidableEq, Repr, Inhabited

/-- INSIGHT_CACHE_TTL_MS: 7 days. -/
def INSIGHT_CACHE_TTL_MS : Int := 7 * 24 * 60 * 60 * 1000

/-- MAX_CACHE_SIZE of CompanyInsightsCache. -/
def INSIGHT_MAX_CACHE_SIZE : Nat := 500

/-- State of a CompanyInsightsCache. The list plays the role of the JS Map;
new entries are put at the front (entry position only matters for the
eviction tie-break on equal timestamps, which uses the timestamps stored
in the entries). -/
structure InsightsCacheState where
  cache : List (String × CachedInsight)
deriving DecidableEq, Repr, Inhabited

/-- CompanyInsightsCache.generateCacheKey. descHash abstracts the 8-hex-char
md5 prefix of the description. -/
def generateCacheKey (descHash : String → String) (jobId description : String) :
    String :=
  "insight:" ++ jobId ++ ":" ++ descHash description

/-- CompanyInsightsCache.evictOldest: delete the entry with the minimal
timestamp, breaking ties toward the earliest-inserted entry. The source
scans the Map in insertion order keeping the strictly smaller timestamp,
so on ties the first-inserted minimum wins; this list is newest-first, so
the fold replaces the candidate on ties (the later, older-inserted element
wins), which selects the same entry. -/
def evictOldest (st : InsightsCacheState) : InsightsCacheState :=
  let oldest := st.cache.foldl
    (fun (acc : Option (String × CachedInsight)) p =>
      match acc with
      | none => some p
      | some q => if p.2.timestamp ≤ q.2.timestamp then some p else some q)
    none
  match oldest with
  | none => st
  | some p => { cache := st.cache.eraseP (fun q => q.1 == p.1) }

/-- CompanyInsightsCache.get at time now: lazily delete an expired entry,
return the insight when present and valid. -/
def insightsGet (descHash : String → String) (st : InsightsCacheState)
    (jobId description : String) (now : Int) :
    Option CompanyInsight × InsightsCacheState :=
  let key := generateCacheKey descHash jobId description
  match st.cache.lookup key with
  | none => (none, st)
  | some cached =>
    if cached.expiresAt ≤ now then
      (none, { cache := st.cache.eraseP (fun q => q.1 == key) })
    else (some cached.insight, st)

/-- CompanyInsightsCache.set at time now: evict the oldest entry when at
capacity and the key is new, then store the insight with a 7-day expiry. -/
def insightsSet (descHash : String → String) (st : InsightsCacheState)
    (jobId description : String) (insight : CompanyInsight) (now : Int) :
    InsightsCacheState :=
  let key := generateCacheKey descHash jobId description
  let st1 :=
    if st.cache.length ≥ INSIGHT_MAX_CACHE_SIZE ∧
        ¬(st.cache.any (fun p => p.1 == key)) then
      evictOldest st
    else st
  let entry : CachedInsight :=
    { insight := insight, timestamp := now, expiresAt := now + INSIGHT_CACHE_TTL_MS }
  { cache := (key, entry) :: st1.cache.eraseP (fun q => q.1 == key) }

/-- Profile used by the concrete instances: one skill, no role or industry
preferences, prefers a small remote company, mid-level with 0 years (so a
job with unknown level keeps the experience factor at mismatch). -/
def profileReact : AnonymizedProfile :=
  { skills := ["react"]
    yearsExperience := 0
    seniority := .mid
    desiredRoles := []
    preferredCompanySize := .small
    industries := []
    remotePreference := .remote }

/-- A job none of whose factors match profileReact: every breakdown field
is 0 and the keyword strategy filters it out. -/
def jobZero : Job :=
  { id := "z"
    title := "a"
    company := "c"
    description := "d"
    requiredSkills := []
    role := "r"
    companySize := .large
    industry := "i"
    remotePreference := .onsite }

/-- A job matching profileReact on the react skill only (score 10). -/
def jobReact : Job :=
  { id := "g"
    title := "a"
    company := "c"
    description := "d"
    requiredSkills := ["react"]
    role := "r"
    companySize := .large
    industry := "i"
    remotePreference := .onsite }

/-- A second copy of jobReact under another id: same score 10. -/
def jobReactCopy : Job := { jobReact with id := "g2" }

/-- A job matching profileReact on skill, company size and remote
preference: breakdown skills 10, companySize 10, remote 10, total 30. -/
def jobTriple : Job :=
  { id := "t"
    title := "a"
    company := "c"
    description := "d"
    requiredSkills := ["react"]
    role := "r"
    companySize := .small
    industry := "i"
    remotePreference := .remote }

/-- Twenty-one jobs: twenty zero-scoring jobs followed by one scoring job.
The orchestrator's slice keeps only the first twenty. -/
def jobsTwentyOne : List Job := List.replicate 20 jobZero ++ [jobReact]

/-- The leading similarity-band sentence of the semantic explanation
(the first push of SemanticMatchingStrategy.generateExplanation). -/
def semBandSentence (similarity : ℚ) : String :=
  if similarity > 0.7 then "Strong semantic match"
  else if similarity > 0.5 then "Good semantic alignment"
  else "Some semantic alignment"

/-- Profile matching jobSkillsRole on exactly the skills and role factors:
one skill, one desired role, no industries, and size/remote/experience
preferences that jobSkillsRole does not satisfy. -/
def profileSkillsRole : AnonymizedProfile :=
  { skills := ["react"]
    yearsExperience := 0
    seniority := .mid
    desiredRoles := ["dev"]
    preferredCompanySize := .small
    industries := []
    remotePreference := .remote }

/-- Job matching profileSkillsRole on skills and role only. -/
def jobSkillsRole : Job :=
  { id := "sr"
    title := "a"
    company := "c"
    description := "d"
    requiredSkills := ["react"]
    role := "dev"
    companySize := .large
    industry := "i"
    remotePreference := .onsite }

/-! ### Helper lemmas -/

/-- A getD hit in the similarity array is a member of the array. -/
theorem getD_some_mem {l : List (Option ℚ)} {i : Nat} {q : ℚ}
    (h : l.getD i none = some q) : some q ∈ l := by
  unfold List.getD at h
  cases hg : l.get? i with
  | none => rw [hg] at h; simp at h
  | some x => rw [hg] at h; simp at h; rw [h] at hg; exact List.get?_mem hg

/-- Math.round is at most its argument plus one half. -/
theorem jsRound_le_add_half (x : ℚ) : (jsRound x : ℚ) ≤ x + 1/2 := Int.floor_le _

/-- Math.round exceeds its argument minus one half. -/
theorem sub_half_lt_jsRound (x : ℚ) : x - 1/2 < (jsRound x : ℚ) := by
  have h := Int.lt_floor_add_one (x + 1/2)
  unfold jsRound
  push_cast at h ⊢
  linarith

/-- Six roundings of an exact partition of s stay within 3 of s. -/
theorem sum_jsRound_six (x1 x2 x3 x4 x5 x6 : ℚ) (s : Int)
    (hsum : x1 + x2 + x3 + x4 + x5 + x6 = (s : ℚ)) :
    |jsRound x1 + jsRound x2 + jsRound x3 + jsRound x4 + jsRound x5 + jsRound x6 - s|
      ≤ 3 := by
  have u1 := jsRound_le_add_half x1
  have u2 := jsRound_le_add_half x2
  have u3 := jsRound_le_add_half x3
  have u4 := jsRound_le_add_half x4
  have u5 := jsRound_le_add_half x5
  have u6 := jsRound_le_add_half x6
  have v1 := sub_half_lt_jsRound x1
  have v2 := sub_half_lt_jsRound x2
  have v3 := sub_half_lt_jsRound x3
  have v4 := sub_half_lt_jsRound x4
  have v5 := sub_half_lt_jsRound x5
  have v6 := sub_half_lt_jsRound x6
  have hub : ((jsRound x1 + jsRound x2 + jsRound x3 + jsRound x4 + jsRound x5 +
      jsRound x6 : Int) : ℚ) ≤ ((s + 3 : Int) : ℚ) := by push_cast; linarith
  have hlb : ((s - 3 : Int) : ℚ) < ((jsRound x1 + jsRound x2 + jsRound x3 + jsRound x4 +
      jsRound x5 + jsRound x6 : Int) : ℚ) := by push_cast; linarith
  have hub2 : jsRound x1 + jsRound x2 + jsRound x3 + jsRound x4 + jsRound x5 +
      jsRound x6 ≤ s + 3 := by exact_mod_cast hub
  have hlb2 : s - 3 < jsRound x1 + jsRound x2 + jsRound x3 + jsRound x4 + jsRound x5 +
      jsRound x6 := by exact_mod_cast hlb
  rw [abs_le]
  omega

/-- The proportional branch of the semantic breakdown adjustment. -/
theorem adjustBreakdown_pos (b : ScoreBreakdown) (s : Int)
    (h : calculateScoreFromBreakdown b > 0) :
    adjustBreakdown b s =
      { skills := jsRound ((b.skills : ℚ) / (calculateScoreFromBreakdown b : ℚ) * (s : ℚ))
        role := jsRound ((b.role : ℚ) / (calculateScoreFromBreakdown b : ℚ) * (s : ℚ))
        industry := jsRound ((b.industry : ℚ) / (calculateScoreFromBreakdown b : ℚ) * (s : ℚ))
        companySize := jsRound ((b.companySize : ℚ) / (calculateScoreFromBreakdown b : ℚ) * (s : ℚ))
        remote := jsRound ((b.remote : ℚ) / (calculateScoreFromBreakdown b : ℚ) * (s : ℚ))
        experience := jsRound ((b.experience : ℚ) / (calculateScoreFromBreakdown b : ℚ) * (s : ℚ)) } := by
  unfold adjustBreakdown
  rw [if_pos h]

/-- The fallback-distribution branch of the semantic breakdown adjustment. -/
theorem adjustBreakdown_nonpos (b : ScoreBreakdown) (s : Int)
    (h : ¬calculateScoreFromBreakdown b > 0) :
    adjustBreakdown b s =
      { skills := jsRound ((s : ℚ) * 0.4)
        role := jsRound ((s : ℚ) * 0.2)
        industry := jsRound ((s : ℚ) * 0.15)
        companySize := jsRound ((s : ℚ) * 0.1)
        remote := jsRound ((s : ℚ) * 0.1)
        experience := jsRound ((s : ℚ) * 0.05) } := by
  unfold adjustBreakdown
  rw [if_neg h]

/-- The six adjusted fields of the semantic breakdown always sum to within
3 of the semantic score (in both the proportional and the fallback branch
the exact shares partition the score). -/
theorem adjustBreakdown_sum_bound (b : ScoreBreakdown) (s : Int) :
    |calculateScoreFromBreakdown (adjustBreakdown b s) - s| ≤ 3 := by
  by_cases hpos : calculateScoreFromBreakdown b > 0
  · rw [adjustBreakdown_pos b s hpos]
    show |jsRound _ + jsRound _ + jsRound _ + jsRound _ + jsRound _ + jsRound _ - s| ≤ 3
    apply sum_jsRound_six
    have hne : ((calculateScoreFromBreakdown b : Int) : ℚ) ≠ 0 := by
      exact_mod_cast ne_of_gt hpos
    have hBq : (b.skills : ℚ) + (b.role : ℚ) + (b.industry : ℚ) + (b.companySize : ℚ) +
        (b.remote : ℚ) + (b.experience : ℚ) =
        ((calculateScoreFromBreakdown b : Int) : ℚ) := by
      unfold calculateScoreFromBreakdown; push_cast; ring
    calc (b.skills : ℚ) / (calculateScoreFromBreakdown b : ℚ) * (s : ℚ) +
          (b.role : ℚ) / (calculateScoreFromBreakdown b : ℚ) * (s : ℚ) +
          (b.industry : ℚ) / (calculateScoreFromBreakdown b : ℚ) * (s : ℚ) +
          (b.companySize : ℚ) / (calculateScoreFromBreakdown b : ℚ) * (s : ℚ) +
          (b.remote : ℚ) / (calculateScoreFromBreakdown b : ℚ) * (s : ℚ) +
          (b.experience : ℚ) / (calculateScoreFromBreakdown b : ℚ) * (s : ℚ)
        = ((b.skills : ℚ) + (b.role : ℚ) + (b.industry : ℚ) + (b.companySize : ℚ) +
            (b.remote : ℚ) + (b.experience : ℚ)) /
            (calculateScoreFromBreakdown b : ℚ) * (s : ℚ) := by ring
      _ = ((calculateScoreFromBreakdown b : Int) : ℚ) /
            ((calculateScoreFromBreakdown b : Int) : ℚ) * (s : ℚ) := by rw [hBq]
      _ = (s : ℚ) := by rw [div_self hne, one_mul]
  · rw [adjustBreakdown_nonpos b s hpos]
    show |jsRound _ + jsRound _ + jsRound _ + jsRound _ + jsRound _ + jsRound _ - s| ≤ 3
    apply sum_jsRound_six
    norm_num
    ring

/-- Decomposition of membership in the keyword strategy output: every
returned result comes from an input job, its score is the breakdown sum for
that job, the score is positive, the result is marked approximate, and its
features are the extractor's features. -/
theorem kwFindMatches_mem_spec {profile : AnonymizedProfile} {jobs : List Job}
    {r : MatchResult} (h : r ∈ kwFindMatches profile jobs) :
    r.job ∈ jobs ∧
    r.score = calculateScoreFromBreakdown (calculateScoreBreakdown profile r.job) ∧
    0 < r.score ∧
    r.isApproximate = true ∧
    r.features = buildMatchFeatures profile r.job := by
  unfold kwFindMatches at h
  have h1 := List.mem_mergeSort.mp ((List.take_sublist 10 _).subset h)
  obtain ⟨job, hjob, hf⟩ := List.mem_filterMap.mp h1
  unfold kwMatchOf at hf
  by_cases hpos :
      calculateScoreFromBreakdown (buildMatchFeatures profile job).scoreBreakdown > 0
  · rw [if_pos hpos] at hf
    obtain rfl := Option.some_injective _ hf
    exact ⟨hjob, rfl, hpos, rfl, rfl⟩
  · rw [if_neg hpos] at hf
    exact absurd hf (by simp)

/-- Decomposition of membership in the semantic strategy output: every
returned result carries the rounded similarity of some numeric entry of the
similarity array as its score, is not marked approximate, and its breakdown
is the adjusted breakdown for that score. -/
theorem semFindMatches_mem_spec {profile : AnonymizedProfile} {jobs : List Job}
    {similarities : List (Option ℚ)} {r : MatchResult}
    (h : r ∈ semFindMatches profile jobs similarities) :
    ∃ q, some q ∈ similarities ∧
      r.score = jsRound (q * 100) ∧
      r.isApproximate = false ∧
      r.features.scoreBreakdown =
        adjustBreakdown (calculateScoreBreakdown profile r.job) r.score := by
  unfold semFindMatches at h
  have h1 := List.mem_mergeSort.mp ((List.take_sublist 10 _).subset h)
  obtain ⟨ij, hij, hf⟩ := List.mem_filterMap.mp h1
  unfold semMatchOf at hf
  cases hq : similarities.getD ij.1 none with
  | none => rw [hq] at hf; exact absurd hf (by simp)
  | some q =>
    rw [hq] at hf
    obtain rfl := Option.some_injective _ hf
    exact ⟨q, getD_some_mem hq, rfl, rfl, rfl⟩

/-- The keyword explanation sentence list always has at least 3 entries. -/
theorem kwExplanationParts_three (profile : AnonymizedProfile) (job : Job)
    (features : MatchFeatures) :
    3 ≤ (kwExplanationParts profile job features).length := by
  unfold kwExplanationParts
  simp only [← List.length_eq_zero, apply_ite List.length, List.length_append,
    List.length_cons, List.length_nil, List.length_singleton]
  generalize features.skillMatch.matched.length = a
  generalize (matchedIndustriesOf profile features).length = b
  by_cases c2 : features.preferenceMatch.role <;>
    by_cases c4 : features.experienceMatch.alignment = MatchAlignment.mismatch <;>
    by_cases c5 : features.preferenceMatch.companySize <;>
    rcases features.preferenceMatch.remote with hr | hr | hr <;>
    simp only [c2, c4, c5, if_true, if_false, ite_true, ite_false, not_true,
      not_false_iff, ne_eq, not_false_eq_true, reduceIte] <;>
    rcases Nat.eq_zero_or_pos a with ha | ha <;>
    rcases Nat.eq_zero_or_pos b with hb | hb <;>
    simp [ha, hb, Nat.pos_iff_ne_zero.mp]

/-- The semantic explanation sentence list always has at least 3 entries. -/
theorem semExplanationParts_three (profile : AnonymizedProfile) (job : Job)
    (similarity : ℚ) (features : MatchFeatures) :
    3 ≤ (semExplanationParts profile job similarity features).length := by
  unfold semExplanationParts
  simp only [← List.length_eq_zero, apply_ite List.length, List.length_append,
    List.length_cons, List.length_nil, List.length_singleton, ite_self]
  generalize features.skillMatch.matched.length = a
  generalize (matchedIndustriesOf profile features).length = b
  by_cases c2 : features.preferenceMatch.role <;>
    by_cases c4 : features.experienceMatch.alignment = MatchAlignment.mismatch <;>
    by_cases c5 : features.preferenceMatch.companySize <;>
    rcases features.preferenceMatch.remote with hr | hr | hr <;>
    simp only [c2, c4, c5, if_true, if_false, ite_true, ite_false, not_true,
      not_false_iff, ne_eq, not_false_eq_true, reduceIte] <;>
    rcases Nat.eq_zero_or_pos a with ha | ha <;>
    rcases Nat.eq_zero_or_pos b with hb | hb <;>
    simp [ha, hb, Nat.pos_iff_ne_zero.mp]

/-- kwResultLE is transitive. -/
theorem kwResultLE_trans : ∀ a b c : MatchResult,
    kwResultLE a b → kwResultLE b c → kwResultLE a c := by
  intro a b c hab hbc
  unfold kwResultLE at *
  exact decide_eq_true (le_trans (of_decide_eq_true hbc) (of_decide_eq_true hab))

/-- kwResultLE is total. -/
theorem kwResultLE_total : ∀ a b : MatchResult, kwResultLE a b || kwResultLE b a := by
  intro a b
  unfold kwResultLE
  rcases le_total a.score b.score with h | h <;> simp [h]

/-- The keyword strategy output is sorted for the Bool comparator. -/
theorem kwFindMatches_pairwise (profile : AnonymizedProfile) (jobs : List Job) :
    (kwFindMatches profile jobs).Pairwise (fun x y => kwResultLE x y) := by
  unfold kwFindMatches
  exact (List.sorted_mergeSort kwResultLE_trans kwResultLE_total
    (jobs.filterMap (kwMatchOf profile))).sublist (List.take_sublist 10 _)

/-- The keyword strategy output has non-increasing scores. -/
theorem kwFindMatches_sorted (profile : AnonymizedProfile) (jobs : List Job) :
    (kwFindMatches profile jobs).Pairwise (fun x y => y.score ≤ x.score) :=
  (kwFindMatches_pairwise profile jobs).imp (fun h => of_decide_eq_true h)

/-- The keyword strategy returns at most 10 results. -/
theorem kwFindMatches_length_le (profile : AnonymizedProfile) (jobs : List Job) :
    (kwFindMatches profile jobs).length ≤ 10 := by
  unfold kwFindMatches
  rw [List.length_take]
  exact min_le_left _ _

/-- On the fallback path with at most 20 jobs, the orchestrator output is
exactly the keyword strategy output: re-sorting the already sorted keyword
list and re-taking 10 of its at most 10 entries change nothing. -/
theorem orchestrator_error_eq (profile : AnonymizedProfile) (jobs : List Job)
    (e : Unit) (hlen : jobs.length ≤ 20) :
    orchestratorFindMatches profile jobs (.error e) = kwFindMatches profile jobs := by
  unfold orchestratorFindMatches MAX_MATCHES_TO_PROCESS
  have htake : jobs.take (min jobs.length (10 * 2)) = jobs := by
    rw [Nat.min_eq_left hlen, List.take_length]
  simp only [htake]
  rw [List.mergeSort_of_sorted (kwFindMatches_pairwise profile jobs)]
  exact List.take_of_length_le (kwFindMatches_length_le profile jobs)

/-- Evaluation rule for Math.round from two rational bounds. -/
theorem jsRound_eq_of (x : ℚ) (n : Int) (h1 : (n : ℚ) ≤ x + 1/2)
    (h2 : x + 1/2 < n + 1) : jsRound x = n := by
  unfold jsRound
  rw [Int.floor_eq_iff]
  · exact ⟨h1, by exact_mod_cast h2⟩

theorem serializeFields_eq_map (l : List (String × JsonVal)) (ks : List String) :
    serializeFields l ks = l.map (fun f => (f.1, serializeVal f.2 ks)) := by
  induction l with
  | nil => rfl
  | cons f rest ih =>
    cases f with
    | mk k v => simp [serializeFields, ih]

theorem sortStrings_perm_eq {l1 l2 : List String} (h : l1.Perm l2) :
    sortStrings l1 = sortStrings l2 := by
  have htrans : ∀ a b c : String, decide (a ≤ b) → decide (b ≤ c) → decide (a ≤ c) := by
    intro a b c h1 h2
    exact decide_eq_true (le_trans (of_decide_eq_true h1) (of_decide_eq_true h2))
  have htotal : ∀ a b : String, decide (a ≤ b) || decide (b ≤ a) := by
    intro a b
    rcases le_total a b with h1 | h1 <;> simp [h1]
  apply List.eq_of_perm_of_sorted (r := fun a b : String => a ≤ b)
  · exact (List.mergeSort_perm l1 _).trans (h.trans (List.mergeSort_perm l2 _).symm)
  · exact (List.sorted_mergeSort htrans htotal l1).imp (fun h => of_decide_eq_true h)
  · exact (List.sorted_mergeSort htrans htotal l2).imp (fun h => of_decide_eq_true h)

theorem mergeSort_keyLE_perm_eq {l1 l2 : List (String × String)}
    (h : l1.Perm l2) (hnd : (l1.map Prod.fst).Nodup) :
    l1.mergeSort keyLE = l2.mergeSort keyLE := by
  have htrans : ∀ a b c : String × String, keyLE a b → keyLE b c → keyLE a c := by
    intro a b c h1 h2
    exact decide_eq_true (le_trans (of_decide_eq_true h1) (of_decide_eq_true h2))
  have htotal : ∀ a b : String × String, keyLE a b || keyLE b a := by
    intro a b
    unfold keyLE
    rcases le_total a.1 b.1 with h1 | h1 <;> simp [h1]
  haveI : IsAntisymm (String × String) (fun a b => a.1 < b.1) :=
    ⟨fun a b h1 h2 => absurd (lt_trans h1 h2) (lt_irrefl _)⟩
  have hnd2 : (l2.map Prod.fst).Nodup := ((h.map Prod.fst).nodup_iff).mp hnd
  have key1 : ((l1.mergeSort keyLE).map Prod.fst).Nodup :=
    (((List.mergeSort_perm l1 keyLE).map Prod.fst).nodup_iff).mpr hnd
  have key2 : ((l2.mergeSort keyLE).map Prod.fst).Nodup :=
    (((List.mergeSort_perm l2 keyLE).map Prod.fst).nodup_iff).mpr hnd2
  apply List.eq_of_perm_of_sorted (r := fun a b : String × String => a.1 < b.1)
  · exact (List.mergeSort_perm l1 _).trans (h.trans (List.mergeSort_perm l2 _).symm)
  · exact (((List.sorted_mergeSort htrans htotal l1).imp₂ (fun a b h1 h2 =>
      lt_of_le_of_ne (of_decide_eq_true h1) h2) (List.pairwise_map.mp key1)))
  · exact (((List.sorted_mergeSort htrans htotal l2).imp₂ (fun a b h1 h2 =>
      lt_of_le_of_ne (of_decide_eq_true h1) h2) (List.pairwise_map.mp key2)))

theorem serializeVal_jobj_perm {f1 f2 : List (String × JsonVal)} (ks : List String)
    (h : f1.Perm f2) (hnd : (f1.map Prod.fst).Nodup) :
    serializeVal (.jobj f1) ks = serializeVal (.jobj f2) ks := by
  unfold serializeVal
  rw [serializeFields_eq_map, serializeFields_eq_map]
  have hperm : ((f1.map (fun f => (f.1, serializeVal f.2 ks))).filter
        (fun f => ks.contains f.1)).Perm
      ((f2.map (fun f => (f.1, serializeVal f.2 ks))).filter
        (fun f => ks.contains f.1)) :=
    (h.map _).filter _
  have hmapfst : ∀ l : List (String × JsonVal),
      ((l.map (fun f => (f.1, serializeVal f.2 ks))).map Prod.fst) = l.map Prod.fst := by
    intro l
    rw [List.map_map]
    rfl
  have hnd1 : (((f1.map (fun f => (f.1, serializeVal f.2 ks))).filter
      (fun f => ks.contains f.1)).map Prod.fst).Nodup := by
    apply List.Nodup.sublist ((List.filter_sublist _).map Prod.fst)
    rw [hmapfst]
    exact hnd
  rw [mergeSort_keyLE_perm_eq hperm hnd1]

theorem generateRequestHash_perm {f1 f2 : List (String × JsonVal)}
    (h : f1.Perm f2) (hnd : (f1.map Prod.fst).Nodup) :
    generateRequestHash (.jobj f1) = generateRequestHash (.jobj f2) := by
  unfold generateRequestHash topLevelKeys
  rw [sortStrings_perm_eq (h.map Prod.fst)]
  exact serializeVal_jobj_perm _ h hnd

theorem dedup_steps {α : Type} (st : DedupState α) (f1 f2 : List (String × JsonVal))
    (t1 t2 t3 ttl tc : Int) (pid1 pid2 pid3 : Nat) (v : α)
    (hperm : f1.Perm f2) (hnd : (f1.map Prod.fst).Nodup)
    (hc : st.cache.lookup (generateRequestHash (.jobj f1)) = none)
    (hp : st.pending.lookup (generateRequestHash (.jobj f1)) = none) :
    (getOrExecuteM st (.jobj f1) t1 pid1).1 = .started pid1 ∧
    (getOrExecuteM (getOrExecuteM st (.jobj f1) t1 pid1).2 (.jobj f2) t2 pid2).1 =
      .joinedPending pid1 ∧
    (completeSuccess (getOrExecuteM st (.jobj f1) t1 pid1).2 (.jobj f1) v t1 ttl
      tc).pending.lookup (generateRequestHash (.jobj f1)) = none ∧
    (completeFailure (getOrExecuteM st (.jobj f1) t1 pid1).2
      (.jobj f1)).pending.lookup (generateRequestHash (.jobj f1)) = none ∧
    (getOrExecuteM (completeFailure (getOrExecuteM st (.jobj f1) t1 pid1).2 (.jobj f1))
      (.jobj f1) t3 pid3).1 = .started pid3 := by
  have hh := generateRequestHash_perm hperm hnd
  refine ⟨?_, ?_, ?_, ?_, ?_⟩
  · simp only [getOrExecuteM, hc, hp]
  · simp only [getOrExecuteM, ← hh, hc, hp, List.lookup, beq_self_eq_true]
  · simp only [getOrExecuteM, completeSuccess, hc, hp, List.eraseP_cons,
      beq_self_eq_true, if_true, cond_true]
  · simp only [getOrExecuteM, completeFailure, hc, hp, List.eraseP_cons,
      beq_self_eq_true, if_true, cond_true]
  · simp only [getOrExecuteM, completeFailure, hc, hp, List.eraseP_cons,
      beq_self_eq_true, if_true, cond_true]

theorem string_append_cancel_left {s a b : String} (h : s ++ a = s ++ b) : a = b := by
  apply String.ext
  have h2 := congrArg String.data h
  simp only [String.data_append] at h2
  exact List.append_cancel_left h2

theorem generateCacheKey_ne (descHash : String → String) (jobId d1 d2 : String)
    (h : descHash d1 ≠ descHash d2) :
    generateCacheKey descHash jobId d1 ≠ generateCacheKey descHash jobId d2 := by
  unfold generateCacheKey
  intro heq
  apply h
  have h1 : ("insight:" ++ jobId ++ ":") ++ descHash d1 =
      ("insight:" ++ jobId ++ ":") ++ descHash d2 := by
    simpa [String.append_assoc] using heq
  exact string_append_cancel_left h1

theorem insights_roundtrip_core (descHash : String → String) (jobId d1 d2 : String)
    (ins : CompanyInsight) (t1 t2 : Int)
    (hvalid : t2 < t1 + INSIGHT_CACHE_TTL_MS)
    (hne : descHash d1 ≠ descHash d2) :
    (insightsGet descHash (insightsSet descHash ⟨[]⟩ jobId d1 ins t1) jobId d1 t2).1 =
      some ins ∧
    (insightsGet descHash (insightsSet descHash ⟨[]⟩ jobId d1 ins t1) jobId d2 t2).1 =
      none := by
  have hset : insightsSet descHash ⟨[]⟩ jobId d1 ins t1 =
      ⟨[(generateCacheKey descHash jobId d1,
        { insight := ins, timestamp := t1, expiresAt := t1 + INSIGHT_CACHE_TTL_MS })]⟩ := by
    simp [insightsSet, INSIGHT_MAX_CACHE_SIZE]
  rw [hset]
  constructor
  · simp only [insightsGet, List.lookup, beq_self_eq_true]
    rw [if_neg (by omega)]
  · have hne2 := generateCacheKey_ne descHash jobId d1 d2 hne
    simp only [insightsGet, List.lookup]
    rw [beq_eq_false_iff_ne.mpr (Ne.symm hne2)]

theorem semFindMatches_singleton (p : AnonymizedProfile) (j : Job) (q : ℚ) :
    semFindMatches p [j] [some q] =
      [{ job := j
         score := jsRound (q * 100)
         explanation := semGenerateExplanation p j q
           { buildMatchFeatures p j with
              scoreBreakdown := adjustBreakdown (buildMatchFeatures p j).scoreBreakdown
                (jsRound (q * 100)) }
         matchedSkills := (buildMatchFeatures p j).skillMatch.matched
         isApproximate := false
         features := { buildMatchFeatures p j with
           scoreBreakdown := adjustBreakdown (buildMatchFeatures p j).scoreBreakdown
             (jsRound (q * 100)) } }] := by
  unfold semFindMatches
  have he : ([j].enum) = [(0, j)] := rfl
  rw [he]
  simp only [List.filterMap_cons, List.filterMap_nil]
  have hm : semMatchOf p [some q] (0, j) = some
      { job := j
        score := jsRound (q * 100)
        explanation := semGenerateExplanation p j q
          { buildMatchFeatures p j with
             scoreBreakdown := adjustBreakdown (buildMatchFeatures p j).scoreBreakdown
               (jsRound (q * 100)) }
        matchedSkills := (buildMatchFeatures p j).skillMatch.matched
        isApproximate := false
        features := { buildMatchFeatures p j with
          scoreBreakdown := adjustBreakdown (buildMatchFeatures p j).scoreBreakdown
            (jsRound (q * 100)) } } := rfl
  rw [hm]
  rw [List.mergeSort_singleton]
  rfl

/-! ### Claim theorems -/

/-- Claim C1 (amended): on the fallback path (semantic rejection or timeout)
the orchestrator output equals the keyword strategy output on the job list
whenever that list has at most 20 jobs (the orchestrator pre-slices the list
to the first MAX_MATCHES_TO_PROCESS * 2 jobs), and every returned result is
marked approximate. -/
theorem orchestrator_fallback_eq_keyword (p : AnonymizedProfile) (jobs : List Job)
    (e : Unit) (r : MatchResult) (hlen : jobs.length ≤ 20)
    (hr : r ∈ orchestratorFindMatches p jobs (.error e)) :
    orchestratorFindMatches p jobs (.error e) = kwFindMatches p jobs ∧
    r.isApproximate = true := by
  have heq := orchestrator_error_eq p jobs e hlen
  refine ⟨heq, ?_⟩
  rw [heq] at hr
  exact (kwFindMatches_mem_spec hr).2.2.2.1

unseal List.merge List.mergeSort in
/-- Witness for C1 at a concrete one-job input. -/
theorem orchestrator_fallback_eq_keyword_witness :
    orchestratorFindMatches profileReact [jobReact] (.error ()) =
      kwFindMatches profileReact [jobReact] ∧
    ((orchestratorFindMatches profileReact [jobReact] (.error ())).headI).isApproximate =
      true :=
  orchestrator_fallback_eq_keyword profileReact [jobReact] () _ (by decide) (by decide)

unseal List.merge List.mergeSort in
/-- Counterexample to C1 as stated: with 21 jobs of which only the last
scores positively, the fallback returns nothing while the keyword strategy
alone on the same job list returns that job. -/
theorem orchestrator_fallback_differs_on_21_jobs :
    orchestratorFindMatches profileReact jobsTwentyOne (.error ()) = [] ∧
    kwFindMatches profileReact jobsTwentyOne ≠ [] := by
  constructor <;> decide

/-- Claim C2: two calls with top-level-permuted identical key objects hash
identically; the first starts the single execution, the second joins the
same in-flight promise (the executor runs exactly once); the in-flight
marker is cleared on success and on failure, and a call after a failure
starts a fresh execution instead of replaying the error. -/
theorem dedup_concurrent_single_execution {α : Type} (st : DedupState α)
    (f1 f2 : List (String × JsonVal)) (t1 t2 t3 ttl tc : Int)
    (pid1 pid2 pid3 : Nat) (v : α)
    (hperm : f1.Perm f2) (hnd : (f1.map Prod.fst).Nodup)
    (hc : st.cache.lookup (generateRequestHash (.jobj f1)) = none)
    (hp : st.pending.lookup (generateRequestHash (.jobj f1)) = none) :
    generateRequestHash (.jobj f1) = generateRequestHash (.jobj f2) ∧
    ((getOrExecuteM st (.jobj f1) t1 pid1).1 = .started pid1 ∧
    (getOrExecuteM (getOrExecuteM st (.jobj f1) t1 pid1).2 (.jobj f2) t2 pid2).1 =
      .joinedPending pid1 ∧
    (completeSuccess (getOrExecuteM st (.jobj f1) t1 pid1).2 (.jobj f1) v t1 ttl
      tc).pending.lookup (generateRequestHash (.jobj f1)) = none ∧
    (completeFailure (getOrExecuteM st (.jobj f1) t1 pid1).2
      (.jobj f1)).pending.lookup (generateRequestHash (.jobj f1)) = none ∧
    (getOrExecuteM (completeFailure (getOrExecuteM st (.jobj f1) t1 pid1).2 (.jobj f1))
      (.jobj f1) t3 pid3).1 = .started pid3) :=
  ⟨generateRequestHash_perm hperm hnd,
    dedup_steps st f1 f2 t1 t2 t3 ttl tc pid1 pid2 pid3 v hperm hnd hc hp⟩

/-- Witness for C2 at two concrete key objects that agree up to top-level
property order. -/
theorem dedup_concurrent_single_execution_witness :
    generateRequestHash (.jobj [("b", JsonVal.jnum 1), ("a", JsonVal.jstr "x")]) =
      generateRequestHash (.jobj [("a", JsonVal.jstr "x"), ("b", JsonVal.jnum 1)]) ∧
    ((getOrExecuteM (⟨[], []⟩ : DedupState Int)
        (.jobj [("b", JsonVal.jnum 1), ("a", JsonVal.jstr "x")]) 0 0).1 = .started 0 ∧
    (getOrExecuteM (getOrExecuteM (⟨[], []⟩ : DedupState Int)
        (.jobj [("b", JsonVal.jnum 1), ("a", JsonVal.jstr "x")]) 0 0).2
      (.jobj [("a", JsonVal.jstr "x"), ("b", JsonVal.jnum 1)]) 1 1).1 =
      .joinedPending 0 ∧
    (completeSuccess (getOrExecuteM (⟨[], []⟩ : DedupState Int)
        (.jobj [("b", JsonVal.jnum 1), ("a", JsonVal.jstr "x")]) 0 0).2
      (.jobj [("b", JsonVal.jnum 1), ("a", JsonVal.jstr "x")]) 42 0 1000
      5).pending.lookup
      (generateRequestHash (.jobj [("b", JsonVal.jnum 1), ("a", JsonVal.jstr "x")])) =
      none ∧
    (completeFailure (getOrExecuteM (⟨[], []⟩ : DedupState Int)
        (.jobj [("b", JsonVal.jnum 1), ("a", JsonVal.jstr "x")]) 0 0).2
      (.jobj [("b", JsonVal.jnum 1), ("a", JsonVal.jstr "x")])).pending.lookup
      (generateRequestHash (.jobj [("b", JsonVal.jnum 1), ("a", JsonVal.jstr "x")])) =
      none ∧
    (getOrExecuteM (completeFailure (getOrExecuteM (⟨[], []⟩ : DedupState Int)
        (.jobj [("b", JsonVal.jnum 1), ("a", JsonVal.jstr "x")]) 0 0).2
      (.jobj [("b", JsonVal.jnum 1), ("a", JsonVal.jstr "x")]))
      (.jobj [("b", JsonVal.jnum 1), ("a", JsonVal.jstr "x")]) 2 2).1 = .started 2) :=
  dedup_concurrent_single_execution (⟨[], []⟩ : DedupState Int)
    [("b", JsonVal.jnum 1), ("a", JsonVal.jstr "x")]
    [("a", JsonVal.jstr "x"), ("b", JsonVal.jnum 1)] 0 1 2 1000 5 0 1 2 42
    (List.Perm.swap ("a", JsonVal.jstr "x") ("b", JsonVal.jnum 1) [])
    (by decide) rfl rfl

/-- Claim C3 (amended): a result cached by getOrExecute expires ttl
milliseconds after the time the request entered getOrExecute (the now
captured at entry), for every completion time of the executor. -/
theorem dedup_ttl_from_request_time {α : Type} (st : DedupState α) (params : JsonVal)
    (reqNow : Int) (pid : Nat) (ttl : Int) (v : α) (tc : Int) :
    (getOrExecuteThenComplete st params reqNow pid ttl v tc).cache.lookup
      (generateRequestHash params) =
      some { result := v, timestamp := reqNow, expiresAt := reqNow + ttl } := by
  unfold getOrExecuteThenComplete completeSuccess
  simp [List.lookup]

unseal List.merge List.mergeSort in
/-- Counterexample to C3 as stated: a request entering at time 0 with
ttl 1000 whose executor completes at time 100 is cached with expiry 1000,
not completion time + ttl = 1100. -/
theorem dedup_ttl_not_completion_time :
    ((getOrExecuteThenComplete (⟨[], []⟩ : DedupState Int)
        (JsonVal.jobj [("q", JsonVal.jstr "x")]) 0 0 1000 7 100).cache.lookup
      (generateRequestHash (JsonVal.jobj [("q", JsonVal.jstr "x")]))).map
        (fun e => e.expiresAt) = some 1000 ∧
    ((getOrExecuteThenComplete (⟨[], []⟩ : DedupState Int)
        (JsonVal.jobj [("q", JsonVal.jstr "x")]) 0 0 1000 7 100).cache.lookup
      (generateRequestHash (JsonVal.jobj [("q", JsonVal.jstr "x")]))).map
        (fun e => e.expiresAt) ≠ some (100 + 1000) := by
  constructor <;> decide

/-- Claim C4 (amended): for every result of the semantic strategy, the six
adjusted breakdown fields sum to within 3 of the semantic score (each field
is Math.round of its exact share, so the sum can differ from the score by
accumulated rounding, but never by more than 3). -/
theorem sem_breakdown_sum_near_score (p : AnonymizedProfile) (jobs : List Job)
    (sims : List (Option ℚ)) (r : MatchResult)
    (h : r ∈ semFindMatches p jobs sims) :
    |calculateScoreFromBreakdown r.features.scoreBreakdown - r.score| ≤ 3 := by
  obtain ⟨q, hq, hsc, happ, hbd⟩ := semFindMatches_mem_spec h
  rw [hbd]
  exact adjustBreakdown_sum_bound _ _

/-- Witness for C4 at a concrete input (the sum is 6, the score 5). -/
theorem sem_breakdown_sum_near_score_witness :
    |calculateScoreFromBreakdown
        ((semFindMatches profileReact [jobTriple]
          [some ((1:ℚ)/20)]).headI).features.scoreBreakdown -
      ((semFindMatches profileReact [jobTriple] [some ((1:ℚ)/20)]).headI).score| ≤ 3 :=
  sem_breakdown_sum_near_score profileReact [jobTriple] [some ((1:ℚ)/20)] _
    (by rw [semFindMatches_singleton]; exact List.mem_singleton.mpr rfl)

/-- Counterexample to C4 as stated: for the profile/job with deterministic
breakdown 10/0/0/10/10/0 and similarity 0.05, the semantic score is 5 but
the adjusted breakdown fields are 2/0/0/2/2/0 and sum to 6, not 5. -/
theorem sem_breakdown_rounding_mismatch :
    ((semFindMatches profileReact [jobTriple] [some ((1:ℚ)/20)]).map
      (fun r => calculateScoreFromBreakdown r.features.scoreBreakdown)) = [6] ∧
    ((semFindMatches profileReact [jobTriple] [some ((1:ℚ)/20)]).map
      (fun r => r.score)) = [5] := by
  have hsc : jsRound ((1:ℚ)/20 * 100) = 5 := jsRound_eq_of _ 5 (by norm_num) (by norm_num)
  have hbd : (buildMatchFeatures profileReact jobTriple).scoreBreakdown =
      ⟨10, 0, 0, 10, 10, 0⟩ := by decide
  have hadj : adjustBreakdown ⟨10, 0, 0, 10, 10, 0⟩ 5 = ⟨2, 0, 0, 2, 2, 0⟩ := by
    rw [adjustBreakdown_pos _ _ (by decide)]
    simp only [ScoreBreakdown.mk.injEq]
    refine ⟨?_, ?_, ?_, ?_, ?_, ?_⟩ <;>
      · apply jsRound_eq_of
        all_goals norm_num [calculateScoreFromBreakdown]
  rw [semFindMatches_singleton]
  simp only [List.map_cons, List.map_nil, hbd, hsc, hadj]
  constructor <;> decide

/-- Claim C5 (amended): every keyword result has a positive score (the
score > 0 filter), while the semantic strategy keeps every job whose
similarity is a number — including similarity 0, whose result has score 0 —
and semantic scores lie in [0, 100] whenever all numeric similarities lie
in [0, 1]. Keyword scores are positive integers but are not capped at 100. -/
theorem strategies_score_range (p : AnonymizedProfile) (jobs : List Job)
    (sims : List (Option ℚ)) (r1 r2 : MatchResult)
    (h1 : r1 ∈ kwFindMatches p jobs)
    (hbounds : ∀ s ∈ sims, ∀ q : ℚ, s = some q → 0 ≤ q ∧ q ≤ 1)
    (h2 : r2 ∈ semFindMatches p jobs sims) :
    0 < r1.score ∧ 0 ≤ r2.score ∧ r2.score ≤ 100 := by
  refine ⟨(kwFindMatches_mem_spec h1).2.2.1, ?_, ?_⟩ <;>
    obtain ⟨q, hq, hsc, -, -⟩ := semFindMatches_mem_spec h2 <;>
    obtain ⟨hq0, hq1⟩ := hbounds _ hq q rfl
  · have hlow : (0:ℚ) - 1/2 < (r2.score : ℚ) := by
      rw [hsc]
      have h3 := sub_half_lt_jsRound (q * 100)
      have h4 : (0:ℚ) ≤ q * 100 := mul_nonneg hq0 (by norm_num)
      linarith
    by_contra hneg
    push_neg at hneg
    have h3 : r2.score ≤ -1 := by omega
    have h4 : (r2.score : ℚ) ≤ -1 := by exact_mod_cast h3
    linarith
  · have hhigh : (r2.score : ℚ) ≤ 100 + 1/2 := by
      rw [hsc]
      have h3 := jsRound_le_add_half (q * 100)
      have h4 : q * 100 ≤ 1 * 100 := mul_le_mul_of_nonneg_right hq1 (by norm_num)
      linarith
    by_contra hneg
    push_neg at hneg
    have h3 : (101:Int) ≤ r2.score := by omega
    have h4 : (101:ℚ) ≤ (r2.score : ℚ) := by exact_mod_cast h3
    linarith

unseal List.merge List.mergeSort in
/-- Witness for C5 at concrete inputs for both strategies. -/
theorem strategies_score_range_witness :
    0 < ((kwFindMatches profileReact [jobReact]).headI).score ∧
    0 ≤ ((semFindMatches profileReact [jobReact] [some ((1:ℚ)/2)]).headI).score ∧
    ((semFindMatches profileReact [jobReact] [some ((1:ℚ)/2)]).headI).score ≤ 100 :=
  strategies_score_range profileReact [jobReact] [some ((1:ℚ)/2)] _ _
    (by decide)
    (by
      intro s hs q hq
      rw [List.mem_singleton] at hs
      subst hs
      injection hq with h
      subst h
      constructor <;> norm_num)
    (by rw [semFindMatches_singleton]; exact List.mem_singleton.mpr rfl)

/-- Counterexample to C5 as stated: the semantic strategy returns a result
with score 0 for a job whose similarity is 0 — a job that scored 0 still
yields a MatchResult. -/
theorem sem_keeps_zero_score :
    ((semFindMatches profileReact [jobZero] [some (0:ℚ)]).map (fun r => r.score)) =
      [0] := by
  have hsc : jsRound ((0:ℚ) * 100) = 0 := jsRound_eq_of _ 0 (by norm_num) (by norm_num)
  rw [semFindMatches_singleton]
  simp only [List.map_cons, List.map_nil, hsc]

/-- Claim C6: every job in the keyword strategy output carries exactly the
sum of the six scoreBreakdown fields of the feature extractor, computed
independently for that (profile, job) pair, as its score. -/
theorem kw_score_eq_breakdown_sum (p : AnonymizedProfile) (jobs : List Job)
    (r : MatchResult) (h : r ∈ kwFindMatches p jobs) :
    r.score = calculateScoreFromBreakdown (calculateScoreBreakdown p r.job) :=
  (kwFindMatches_mem_spec h).2.1

unseal List.merge List.mergeSort in
/-- Witness for C6 at a concrete profile and job. -/
theorem kw_score_eq_breakdown_sum_witness :
    ((kwFindMatches profileReact [jobReact]).headI).score =
      calculateScoreFromBreakdown (calculateScoreBreakdown profileReact
        ((kwFindMatches profileReact [jobReact]).headI).job) :=
  kw_score_eq_breakdown_sum profileReact [jobReact] _ (by decide)

/-- Claim C7: set followed by get with the same jobId and description
before expiry returns the stored insight, and get with a different
description misses even under the same jobId. The 8-hex-char md5 prefix of
the description is abstracted as an injective hash function. -/
theorem insights_set_then_get (descHash : String → String)
    (hinj : Function.Injective descHash) (jobId d1 d2 : String)
    (ins : CompanyInsight) (t1 t2 : Int)
    (hvalid : t2 < t1 + INSIGHT_CACHE_TTL_MS) (hd : d1 ≠ d2) :
    (insightsGet descHash (insightsSet descHash ⟨[]⟩ jobId d1 ins t1) jobId d1 t2).1 =
      some ins ∧
    (insightsGet descHash (insightsSet descHash ⟨[]⟩ jobId d1 ins t1) jobId d2 t2).1 =
      none :=
  insights_roundtrip_core descHash jobId d1 d2 ins t1 t2 hvalid (fun h => hd (hinj h))

/-- Witness for C7 at concrete strings and times. -/
theorem insights_set_then_get_witness :
    (insightsGet id (insightsSet id ⟨[]⟩ "j" "a"
      ⟨CompanySize.small, ["tech"], "desc", ["r1", "r2"]⟩ 0) "j" "a" 0).1 =
      some ⟨CompanySize.small, ["tech"], "desc", ["r1", "r2"]⟩ ∧
    (insightsGet id (insightsSet id ⟨[]⟩ "j" "a"
      ⟨CompanySize.small, ["tech"], "desc", ["r1", "r2"]⟩ 0) "j" "b" 0).1 = none :=
  insights_set_then_get id (fun a b h => h) "j" "a" "b"
    ⟨CompanySize.small, ["tech"], "desc", ["r1", "r2"]⟩ 0 0 (by decide) (by decide)

/-- Claim C8 (amended): the keyword strategy returns at most 10 results in
descending (non-increasing) score order; ties between equal scores are
preserved in input order by the stable sort, so the order is not strictly
descending in general. -/
theorem kw_top10_descending (p : AnonymizedProfile) (jobs : List Job) :
    (kwFindMatches p jobs).length ≤ 10 ∧
    (kwFindMatches p jobs).Pairwise (fun a b => b.score ≤ a.score) :=
  ⟨kwFindMatches_length_le p jobs, kwFindMatches_sorted p jobs⟩

unseal List.merge List.mergeSort in
/-- Counterexample to C8 as stated: two identical jobs under different ids
both score 10, so the output scores are 10, 10 — not strictly descending. -/
theorem kw_ties_not_strict :
    ¬((kwFindMatches profileReact [jobReact, jobReactCopy]).length ≤ 10 ∧
      (kwFindMatches profileReact [jobReact, jobReactCopy]).Pairwise
        (fun a b => b.score < a.score)) := by
  decide

/-- The semantic explanation always opens with the similarity-band
sentence. -/
theorem semExplanationParts_headI (profile : AnonymizedProfile) (job : Job)
    (similarity : ℚ) (features : MatchFeatures) :
    (semExplanationParts profile job similarity features).headI =
      semBandSentence similarity := by
  unfold semExplanationParts semBandSentence
  by_cases h7 : similarity > (0.7:ℚ) <;> by_cases h5 : similarity > (0.5:ℚ) <;>
    by_cases c2 : features.preferenceMatch.role <;>
    by_cases c4 : features.experienceMatch.alignment = MatchAlignment.mismatch <;>
    by_cases hz1 : features.skillMatch.matched.length = 0 <;>
    by_cases hz2 : (matchedIndustriesOf profile features).length = 0 <;>
    by_cases c5 : features.preferenceMatch.companySize <;>
    rcases features.preferenceMatch.remote with hr | hr | hr <;>
    simp [h7, h5, c2, c4, c5, hz1, hz2, Nat.pos_iff_ne_zero]

/-- Claim C9 (amended): the keyword strategy builds every explanation as
the ". "-join of a sentence list of at least 3 factor/filler sentences
drawn from skills/role/industry/experience/companySize/remote. The
semantic strategy opens its sentence list with the similarity-band
sentence, and its at-least-3 length check counts that band sentence, so
only at least 2 factor/filler sentences follow it — the semantic
explanation can reference as few as 2 of the six factors. -/
theorem explanation_sentence_guarantees (p : AnonymizedProfile) (j : Job)
    (sim : ℚ) (f : MatchFeatures) :
    3 ≤ (kwExplanationParts p j f).length ∧
    kwGenerateExplanation p j f = String.intercalate ". " (kwExplanationParts p j f) ∧
    (semExplanationParts p j sim f).headI = semBandSentence sim ∧
    2 ≤ ((semExplanationParts p j sim f).tail).length ∧
    semGenerateExplanation p j sim f =
      String.intercalate ". " (semExplanationParts p j sim f) := by
  have h1 := kwExplanationParts_three p j f
  have h2 := semExplanationParts_three p j sim f
  refine ⟨h1, ?_, semExplanationParts_headI p j sim f, ?_, rfl⟩
  · unfold kwGenerateExplanation
    rw [if_neg (by omega)]
  · rw [List.length_tail]
    omega

/-- Counterexample to C9 as stated: for a profile and job matching on
exactly the skills and role factors, the semantic explanation is the
similarity-band sentence followed by only two factor sentences — three
sentences in total, so no filler is appended, yet only two of them are
drawn from the six factors. -/
theorem sem_explanation_two_factor_sentences :
    semExplanationParts profileSkillsRole jobSkillsRole 0
        (buildMatchFeatures profileSkillsRole jobSkillsRole) =
      ["Some semantic alignment", "Skills match: react",
        "Role matches your preferences: dev"] ∧
    (semFindMatches profileSkillsRole [jobSkillsRole] [some (0:ℚ)]).map
        (fun r => r.explanation) =
      ["Some semantic alignment. Skills match: react. Role matches your preferences: dev"]
    := by
  have hband : (if (0:ℚ) > 0.7 then ["Strong semantic match"]
      else if (0:ℚ) > 0.5 then ["Good semantic alignment"]
      else ["Some semantic alignment"]) = ["Some semantic alignment"] := by norm_num
  constructor
  · unfold semExplanationParts
    rw [hband]
    decide
  · rw [semFindMatches_singleton]
    simp only [List.map_cons, List.map_nil]
    unfold semGenerateExplanation semExplanationParts
    rw [hband]
    decide

unseal List.merge List.mergeSort in
/-- Claim C10: two distinct key objects that differ only in a nested
property whose name is not a top-level key serialize to the same normalized
string, hence the same request hash; a getOrExecute call with the second
key joins the in-flight execution started for the first key. -/
theorem nested_key_hash_collision :
    JsonVal.jobj [("a", JsonVal.jobj [("b", JsonVal.jnum 1)])] ≠
      JsonVal.jobj [("a", JsonVal.jobj [("b", JsonVal.jnum 2)])] ∧
    generateRequestHash (JsonVal.jobj [("a", JsonVal.jobj [("b", JsonVal.jnum 1)])]) =
      generateRequestHash (JsonVal.jobj [("a", JsonVal.jobj [("b", JsonVal.jnum 2)])]) ∧
    (getOrExecuteM (⟨[], []⟩ : DedupState Int)
      (JsonVal.jobj [("a", JsonVal.jobj [("b", JsonVal.jnum 1)])]) 0 0).1 =
      .started 0 ∧
    (getOrExecuteM (getOrExecuteM (⟨[], []⟩ : DedupState Int)
        (JsonVal.jobj [("a", JsonVal.jobj [("b", JsonVal.jnum 1)])]) 0 0).2
      (JsonVal.jobj [("a", JsonVal.jobj [("b", JsonVal.jnum 2)])]) 1 1).1 =
      .joinedPending 0 := by
  refine ⟨?_, ?_, ?_, ?_⟩
  · simp
  · decide
  · decide
  · decide
